import Mathlib

/-!
Verification development for the Nerd scripting-language kernel (nerd.c).

The definitions below are a shallow embedding of the C source:

* machine pointers are modelled as byte addresses / offsets (`Nat`);
* the VM's memory callback is modelled as always succeeding, and `realloc`
  is modelled as address-stable (all observable arena state is kept in
  offsets, which is what the C code itself relies on);
* `i64` arithmetic is wrapped mod 2^64 where it can overflow;
* C `char` arithmetic that can wrap is taken mod 2^256 / 256 as appropriate;
* loops whose termination depends on cursor progress are given explicit
  fuel, always called with more fuel than any reachable execution needs;
  fuel exhaustion is a distinguished outcome that theorems never rely on.
-/

set_option maxRecDepth 4000

namespace Nerd

/-- The NUL character: what `nextChar` returns at end of input, and the
terminator written by string routines. -/
def NUL : Char := Char.ofNat 0

/-- Wrap an integer to the signed 64-bit range, modelling C `i64` overflow. -/
def i64wrap (x : Int) : Int := (x + 2 ^ 63) % 2 ^ 64 - 2 ^ 63

/-! ## Built-in string type (`stringCreate`, nerd.c)

`stringCreate` takes a raw source byte range and decodes backslash escapes
in two passes: a counting pass that computes the output length, then a fill
pass that writes the decoded bytes into a buffer of length + 1 (trailing
NUL).  Both passes are embedded verbatim below over a `List Char` of source
bytes. -/

/-- The escape decoding of the fill pass's `switch` on the character after
a backslash. -/
def escChar (c : Char) : Char :=
  if c = 'n' then Char.ofNat 10
  else if c = 'r' then Char.ofNat 13
  else if c = 't' then Char.ofNat 9
  else if c = 'b' then Char.ofNat 8
  else c

/-- First pass of `stringCreate`: visits every index `i`; a backslash
counts one output byte exactly when the following character is also a
backslash, every other character counts one output byte.  (The pass does
not skip the character following a backslash.) -/
def stringCreateLen : List Char → Nat
  | [] => 0
  | c :: rest =>
    (if c = '\\' then (if rest.headD NUL = '\\' ∧ rest ≠ [] then 1 else 0) else 1)
      + stringCreateLen rest

/-- Second pass of `stringCreate`: a backslash consumes the next character
and emits its escape decoding (nothing if the backslash is last), any other
character is copied through. -/
def stringCreateFill : List Char → List Char
  | [] => []
  | '\\' :: [] => []
  | '\\' :: c :: rest => escChar c :: stringCreateFill rest
  | c :: rest => c :: stringCreateFill rest

/-! ## Object registry and GC store (`NeObjectCreate`, `objectDelete`,
`NeClose`, nerd.c)

Heap blocks are modelled by consecutive ids handed out by an allocation
counter (`NeAlloc` is modelled as always succeeding).  The observable
behaviour tracked is: the VM's intrusive GC list (`gcObjs`, head = most
recently linked), the order of delete-callback invocations (`deleted`),
and the order of `NeFree` calls on object blocks (`freed`).  The create
callback is modelled by its outcome; per the registered string type, the
modelled object type carries a delete callback exactly when `hasDeleteFn`
is true. -/

structure GcState where
  gcObjs : List Nat
  nextAddr : Nat
  deleted : List Nat
  freed : List Nat
deriving DecidableEq

/-- C source `objectDelete`: invokes the type's delete callback if present, then
frees the header+payload block. -/
def objectDelete (hasDeleteFn : Bool) (id : Nat) (s : GcState) : GcState :=
  { s with
    deleted := s.deleted ++ (if hasDeleteFn then [id] else [])
    freed := s.freed ++ [id] }

/-- C source `NeObjectCreate`: allocates a fresh block, zero-fills the payload, runs
the create callback if the type has one; on callback failure the block is
torn down (`objectDelete`) and `0` is returned, otherwise the new header is
prepended to the VM's GC list. -/
def NeObjectCreate (hasCreateFn createOk hasDeleteFn : Bool) (s : GcState) :
    Option Nat × GcState :=
  let id := s.nextAddr
  let s1 := { s with nextAddr := id + 1 }
  if hasCreateFn && !createOk then
    (none, objectDelete hasDeleteFn id s1)
  else
    (some id, { s1 with gcObjs := id :: s1.gcObjs })

/-- The teardown loop of `NeClose`: walks the GC list head to tail,
deleting every object. -/
def NeCloseLoop (hasDeleteFn : Bool) (s : GcState) : List Nat → GcState
  | [] => s
  | id :: rest => NeCloseLoop hasDeleteFn (objectDelete hasDeleteFn id s) rest

/-- C source `NeClose` (the GC part): deletes every object on the GC list, leaving
the list empty. -/
def NeClose (hasDeleteFn : Bool) (s : GcState) : GcState :=
  { NeCloseLoop hasDeleteFn s s.gcObjs with gcObjs := [] }

/-- The empty VM object store right after `NeOpen`. -/
def gcInit : GcState := ⟨[], 0, [], []⟩

/-- A sequence of `NeObjectCreate` calls on the string type (which has both
a create and a delete callback), the i-th call's create-callback outcome
given by the i-th list element. -/
def runCreates (outs : List Bool) (s : GcState) : GcState :=
  outs.foldl (fun s ok => (NeObjectCreate true ok true s).2) s

/-- The ids of the successfully created objects of such a sequence, in
creation order, when the first call allocates block id `n`. -/
def okIdsFrom : Nat → List Bool → List Nat
  | _, [] => []
  | n, ok :: rest => (if ok then [n] else []) ++ okIdsFrom (n + 1) rest

/-! ## Arena (`arenaEnsureSpace`, `arenaAlloc`, `arenaAlign`, `arenaPush`,
`arenaPop`, `arenaFormatV`, nerd.c)

`base` models the numeric address of `arena->start` (16-byte alignment in
`arenaAlign` is computed from the address, exactly as the C code computes
`(start + cursor) % 16`).  `mem` models the i64 words the push/pop
restore-point protocol stores in the buffer itself, keyed by byte offset.
Reallocation is modelled as succeeding and address-stable. -/

structure Arena where
  base : Nat
  size : Nat
  cursor : Nat
  restore : Int
  mem : Nat → Int

/-- C source `arenaEnsureSpace`: grows the buffer when `cursor + numBytes` would
pass the end; the new size adds `max (currentSize + numBytes) 4096`. -/
def arenaEnsureSpace (numBytes : Nat) (a : Arena) : Arena :=
  if a.size < a.cursor + numBytes then
    { a with size := a.size + max (a.size + numBytes) 4096 }
  else a

/-- C source `arenaAlloc`: ensure space, return the current cursor as the allocation
offset, and advance the cursor. -/
def arenaAlloc (numBytes : Nat) (a : Arena) : Nat × Arena :=
  let a1 := arenaEnsureSpace numBytes a
  (a1.cursor, { a1 with cursor := a1.cursor + numBytes })

/-- C source `arenaAlign`: pad so the next allocation's address is 16-byte aligned
(`mod` below is the C `(start + cursor) % 16`). -/
def arenaAlign (a : Arena) : Arena :=
  if (a.base + a.cursor) % 16 ≠ 0 then
    (arenaAlloc (16 - (a.base + a.cursor) % 16) a).2
  else a

/-- C source `arenaPush`: align, allocate two i64 words, store a sentinel and the
previous restore offset there, and record the new restore point. -/
def arenaPush (a : Arena) : Arena :=
  { (arenaAlloc 16 (arenaAlign a)).2 with
    mem := fun o =>
      if o = (arenaAlloc 16 (arenaAlign a)).1 then (0xaaaaaaaaaaaaaaaa : Int)
      else if o = (arenaAlloc 16 (arenaAlign a)).1 + 8 then
        (arenaAlloc 16 (arenaAlign a)).2.restore
      else (arenaAlloc 16 (arenaAlign a)).2.mem o
    restore := ((arenaAlloc 16 (arenaAlign a)).1 : Int) }

/-- C source `arenaPop`: reset the cursor to the restore point, overwrite the freed
header's first word with the other sentinel, and restore the previous
restore offset from the header's second word. -/
def arenaPop (a : Arena) : Arena :=
  { a with
    cursor := a.restore.toNat
    mem := fun o => if o = a.restore.toNat then (0xbbbbbbbbbbbbbbbb : Int) else a.mem o
    restore := a.mem (a.restore.toNat + 8) }

/-- C source `arenaSpace`: bytes left before expansion is required. -/
def arenaSpace (a : Arena) : Nat := a.size - a.cursor

/-- C source `arenaFormatV` for a rendering of length `s.length`: if the rendered
length fits strictly below the free space, commit it with a plain `alloc`;
otherwise ensure space for length + 1, re-render, and commit length + 1
bytes.  Returns the number of payload characters written (the re-render
after growth writes the full text). -/
def arenaFormatV (s : List Char) (a : Arena) : Nat × Arena :=
  if s.length < arenaSpace a then
    (s.length, (arenaAlloc s.length a).2)
  else
    (s.length, (arenaAlloc (s.length + 1) (arenaEnsureSpace (s.length + 1) a)).2)

/-- The growth amount claimed by the spec's words — "new size =
`max(current*2, requested, 4096)` bytes beyond the current size" — stated
as a definition so it can be compared with `arenaEnsureSpace`. -/
def specGrownSize (current requested : Nat) : Nat :=
  current + max (max (2 * current) requested) 4096

/-! ## Values (`Atom`, nerd.c / nerd.h)

The only registered object type is the built-in string, so an
object-referencing atom is modelled by the decoded payload of the string
object it references. -/

inductive Atom where
  | nil
  | int (i : Int)
  | bool (b : Bool)
  | char (c : Char)
  | obj (payload : List Char)
deriving DecidableEq

def NeMakeNil : Atom := .nil

def NeMakeInt (i : Int) : Atom := .int (i64wrap i)

def NeMakeBool (b : Bool) : Atom := .bool b

def NeMakeChar (c : Char) : Atom := .char c

/-! ## Lexical analysis (nerd.c, LEX section) -/

/-- C source `NE_IS_WHITESPACE`. -/
def isWs (c : Char) : Bool := c = ' ' || c = Char.ofNat 9 || c = Char.ofNat 10

/-- C source `NE_IS_CLOSE_PAREN`. -/
def isCloseParen (c : Char) : Bool := c = ')' || c = ']' || c = Char.ofNat 125

/-- C source `NE_IS_TERMCHAR`. -/
def isTermChar (c : Char) : Bool :=
  isWs c || isCloseParen c || c = ':' || c = '\\' || c = NUL

/-- Token kinds (`NeToken`).  `fuelOut` is a model artifact marking fuel
exhaustion of the embedding; no reachable execution produces it under the
fuel supplied by `lex`. -/
inductive NeToken where
  | unknown
  | error
  | fuelOut
  | eof
  | number
  | symbol
  | character
  | strTok
  | nilKw
  | yesKw
  | noKw
deriving DecidableEq

/-- The name-character classification table `gNameChar` (indices 0..127):
0 = not a name character, 1 = name character, 2 = name character but not
as the initial character. -/
def gNameCharTable : List Nat :=
  [0, 0, 0, 0, 0, 0, 0, 0, 0, 0, 0, 0, 0, 0, 0, 0,
   0, 0, 0, 0, 0, 0, 0, 0, 0, 0, 0, 0, 0, 0, 0, 0,
   0, 1, 0, 1, 1, 1, 1, 0, 0, 0, 1, 1, 0, 1, 0, 1,
   2, 2, 2, 2, 2, 2, 2, 2, 2, 2, 0, 0, 1, 1, 1, 1,
   1, 1, 1, 1, 1, 1, 1, 1, 1, 1, 1, 1, 1, 1, 1, 1,
   1, 1, 1, 1, 1, 1, 1, 1, 1, 1, 1, 0, 0, 0, 1, 1,
   0, 1, 1, 1, 1, 1, 1, 1, 1, 1, 1, 1, 1, 1, 1, 1,
   1, 1, 1, 1, 1, 1, 1, 1, 1, 1, 1, 0, 1, 0, 1, 0]

def gNameChar (c : Char) : Nat := gNameCharTable.getD c.toNat 0

/-- The 64-bit FNV-1a hash (`hash`, nerd.c), over u64 arithmetic. -/
def fnv1a (s : List Char) : Nat :=
  s.foldl (fun h c => ((h ^^^ c.toNat) * 1099511628211) % 2 ^ 64)
    14695981039346656037

/-- C source `gKeyWordHashes`: hash-bucket table of packed keyword-token ids
(`NeToken_Yes` = 6 at bucket 0, `NeToken_No` = 7 at bucket 0xA,
`NeToken_Nil` = 5 at bucket 0xC). -/
def gKeyWordHashes : List Nat :=
  [6, 0, 0, 0, 0, 0, 0, 0, 0, 0, 7, 0, 5, 0, 0, 0]

/-- C source `gKeywords`: each entry is a length digit followed by the keyword. -/
def gKeywords : List (List Char) :=
  [['3', 'n', 'i', 'l'], ['3', 'y', 'e', 's'], ['2', 'n', 'o']]

/-- The keyword token `NeToken_KEYWORDS + index`. -/
def kwFromIndex : Nat → NeToken
  | 0 => .nilKw
  | 1 => .yesKw
  | 2 => .noKw
  | _ => .unknown

/-- The named-character table `gCharMap`: a length digit, then the token
text (including the leading backslash), and the character it denotes. -/
def gCharMap : List (List Char × Char) :=
  [(['5', '\\', 's', 'p', 'a', 'c', 'e'], ' '),
   (['9', '\\', 'b', 'a', 'c', 'k', 's', 'p', 'a', 'c', 'e'], Char.ofNat 8),
   (['3', '\\', 't', 'a', 'b'], Char.ofNat 9),
   (['7', '\\', 'n', 'e', 'w', 'l', 'i', 'n', 'e'], Char.ofNat 10),
   (['6', '\\', 'r', 'e', 't', 'u', 'r', 'n'], Char.ofNat 13),
   (['4', '\\', 'b', 'e', 'l', 'l'], Char.ofNat 7),
   (['3', '\\', 'e', 's', 'c'], Char.ofNat 27)]

/-- The lexer cursor state (`NeLex`); `cursor` and `lastCursor` are byte
offsets into the source span. -/
structure NeLex where
  line : Nat
  lastLine : Nat
  cursor : Nat
  lastCursor : Nat
deriving DecidableEq

/-- One produced lexeme (`NeLexInfo`): byte span `[startO, endO)`, source
line, token kind, and the pre-resolved atom. -/
structure NeLexInfo where
  startO : Nat
  endO : Nat
  line : Nat
  tok : NeToken
  atom : Atom
deriving DecidableEq

/-- The `lastCursor`/`lastLine` recording at the head of `nextChar`. -/
def bumpLast (L : NeLex) : NeLex :=
  { L with lastCursor := L.cursor, lastLine := L.line }

/-- C source `nextChar`: fetch the next character, tracking one-step pushback state
and normalizing `\r`, `\n`, `\r\n` to a single `'\n'` with the line
counter incremented; returns NUL at end of input. -/
def nextChar (src : List Char) (L : NeLex) : Char × NeLex :=
  if L.cursor ≥ src.length then (NUL, bumpLast L)
  else if src.getD L.cursor NUL = Char.ofNat 13 ∨ src.getD L.cursor NUL = Char.ofNat 10 then
    if src.getD L.cursor NUL = Char.ofNat 13 then
      if L.cursor + 1 < src.length ∧ src.getD (L.cursor + 1) NUL = Char.ofNat 10 then
        (Char.ofNat 10, { bumpLast L with cursor := L.cursor + 2, line := L.line + 1 })
      else (Char.ofNat 10, { bumpLast L with cursor := L.cursor + 1, line := L.line + 1 })
    else (Char.ofNat 10, { bumpLast L with cursor := L.cursor + 1, line := L.line + 1 })
  else (src.getD L.cursor NUL, { bumpLast L with cursor := L.cursor + 1 })

/-- C source `ungetChar`: return the cursor to the previous character (valid once
per `nextChar`). -/
def ungetChar (L : NeLex) : NeLex :=
  { L with line := L.lastLine, cursor := L.lastCursor }

/-- The three messages `lexErrorV` sends through the output callback (when
one is configured): the `<origin>(<line>): LEX ERROR: ` header, the
formatted message, and a newline. -/
def lexErrOut (hasOut : Bool) (origin : String) (line : Nat) (msg : String) :
    List String :=
  if hasOut then [origin ++ ("(" ++ toString line ++ "): LEX ERROR: "), msg, "\n"]
  else []

/-- The result of one `lexNext` call: the returned token kind, the lexeme
appended to the token arena (if any), the lexer state, and the output
messages emitted. -/
structure LexStep where
  tok : NeToken
  info : Option NeLexInfo
  lexSt : NeLex
  out : List String
deriving DecidableEq

/-- C source `lexBuild`: append a lexeme and return its token kind. -/
def buildStep (s0 e line : Nat) (t : NeToken) (a : Atom) (L : NeLex) : LexStep :=
  ⟨t, some ⟨s0, e, line, t, a⟩, L, []⟩

/-- C source `lexError` as a step result. -/
def errStep (hasOut : Bool) (origin : String) (L : NeLex) (msg : String) : LexStep :=
  ⟨.error, none, L, lexErrOut hasOut origin L.line msg⟩

/-- Fuel-exhaustion step (model artifact). -/
def fuelStep (L : NeLex) : LexStep := ⟨.fuelOut, none, L, []⟩

/-- The `;`/`# ` line-comment loop: skip until NUL or newline. -/
def lineComment (src : List Char) : Nat → Char → NeLex → Option (Char × NeLex)
  | 0, _, _ => none
  | fuel + 1, c, L =>
    if c = NUL ∨ c = Char.ofNat 10 then some (c, L)
    else
      let r := nextChar src L
      lineComment src fuel r.1 r.2

/-- The nestable `#| ... |#` block-comment loop with its depth counter. -/
def blockComment (src : List Char) : Nat → Nat → Char → NeLex → Option (Char × NeLex)
  | 0, _, _, _ => none
  | fuel + 1, depth, c, L =>
    if c = NUL ∨ depth = 0 then some (c, L)
    else
      let r := nextChar src L
      if r.1 = '#' then
        let r2 := nextChar src r.2
        if r2.1 = '|' then blockComment src fuel (depth + 1) r2.1 r2.2
        else blockComment src fuel depth r2.1 r2.2
      else if r.1 = '|' then
        let r2 := nextChar src r.2
        if r2.1 = '#' then blockComment src fuel (depth - 1) r2.1 r2.2
        else blockComment src fuel depth r2.1 r2.2
      else blockComment src fuel depth r.1 r.2

/-- Result of the whitespace/comment-skipping loop at the head of
`lexNext`. -/
inductive SkipRes where
  | eof (L : NeLex)
  | found (c : Char) (L : NeLex)
  | fuelOut
deriving DecidableEq

/-- The skipping loop at the head of `lexNext`: whitespace, `;` comments,
`# ` comments, `#| |#` block comments; a `#` followed by anything else is
a "possible prefix character" and scanning just continues. -/
def skipLoop (src : List Char) : Nat → Char → NeLex → SkipRes
  | 0, _, _ => .fuelOut
  | fuel + 1, c, L =>
    if c = NUL then .eof L
    else if isWs c then
      let r := nextChar src L
      skipLoop src fuel r.1 r.2
    else if c = ';' then
      match lineComment src (src.length + 4) c L with
      | none => .fuelOut
      | some (c1, L1) => skipLoop src fuel c1 L1
    else if c = '#' then
      let r := nextChar src L
      if r.1 = '|' then
        match blockComment src (src.length + 4) 1 r.1 r.2 with
        | none => .fuelOut
        | some (c1, L1) => skipLoop src fuel c1 L1
      else if isWs r.1 then
        match lineComment src (src.length + 4) r.1 r.2 with
        | none => .fuelOut
        | some (c1, L1) => skipLoop src fuel c1 L1
      else skipLoop src fuel r.1 r.2
    else .found c L

def isDigit (c : Char) : Bool := '0' ≤ c ∧ c ≤ '9'

/-- State 2 of the number state machine: unconditionally treat the current
character as a digit (`intPart * 10 + (c - '0')` over i64), fetch the next
character, and leave for the terminal state when it is not a digit. -/
def numDigits (src : List Char) : Nat → Int → Char → NeLex → Option (Int × NeLex)
  | 0, _, _, _ => none
  | fuel + 1, acc, c, L =>
    let acc1 := i64wrap (acc * 10 + ((c.toNat : Int) - 48))
    let r := nextChar src L
    if isDigit r.1 then numDigits src fuel acc1 r.1 r.2
    else some (acc1, r.2)

/-- The number branch of `lexNext` (states 0, 1, 2, 100): an optional sign
processed by state 1, then digits, then the terminal state ungets the
lookahead and builds a Number lexeme with value `sign * intPart` (i64). -/
def numberTok (src : List Char) (s0 : Nat) (c : Char) (L : NeLex) : LexStep :=
  let sr : Int × Char × NeLex :=
    if isDigit c then (1, c, L)
    else ((if c = '-' then -1 else 1), (nextChar src L).1, (nextChar src L).2)
  match numDigits src (src.length + 4) 0 sr.2.1 sr.2.2 with
  | none => fuelStep L
  | some (intPart, L1) =>
    let L2 := ungetChar L1
    buildStep s0 L2.cursor L2.line .number (NeMakeInt (sr.1 * intPart)) L2

/-- The keyword/symbol name loop: consume name characters, then unget. -/
def nameLoop (src : List Char) : Nat → Char → NeLex → Option NeLex
  | 0, _, _ => none
  | fuel + 1, c, L =>
    if gNameChar c ≠ 0 then
      let r := nextChar src L
      nameLoop src fuel r.1 r.2
    else some (ungetChar L)

/-- The packed keyword-candidate scan: each byte of `tokens` is a keyword
token id; a candidate is accepted when its recorded length equals the
token's length and its text equals the token's text. -/
def kwScan (slice : List Char) : Nat → Nat → Option NeToken
  | 0, _ => none
  | fuel + 1, tokens =>
    if tokens = 0 then none
    else
      let index := tokens % 256 - 5
      let kw := gKeywords.getD index []
      if (kw.headD NUL).toNat - 48 = slice.length ∧ slice = kw.tail.take slice.length
      then some (kwFromIndex index)
      else kwScan slice fuel (tokens / 256)

/-- The keyword/symbol branch of `lexNext`: hash the span, test the
keyword candidates in its hash bucket, and fail with "Symbols not
implemented yet!" when none matches. -/
def nameTok (hasOut : Bool) (origin : String) (src : List Char) (s0 : Nat)
    (c : Char) (L : NeLex) : LexStep :=
  match nameLoop src (src.length + 4) c L with
  | none => fuelStep L
  | some L1 =>
    let slice := (src.drop s0).take (L1.cursor - s0)
    let h := fnv1a slice
    match kwScan slice 9 (gKeyWordHashes.getD (h % 16) 0) with
    | some t => buildStep s0 L1.cursor L1.line t NeMakeNil L1
    | none => errStep hasOut origin L1 "Symbols not implemented yet!"

/-- The string-scanning loop: advance until NUL, newline, or a closing
double quote. -/
def strScan (src : List Char) : Nat → Char → NeLex → Option (Char × NeLex)
  | 0, _, _ => none
  | fuel + 1, c, L =>
    if c = NUL ∨ c = Char.ofNat 10 ∨ c = '"' then some (c, L)
    else strScan src fuel (nextChar src L).1 (nextChar src L).2

/-- The string branch of `lexNext`: capture the raw span up to the closing
quote (escape decoding is deferred to the string type's create callback);
a newline or end of input first is the "Unterminated string." lex error. -/
def stringTok (hasOut : Bool) (origin : String) (src : List Char) (L : NeLex) :
    LexStep :=
  match strScan src (src.length + 4) (nextChar src L).1 (nextChar src L).2 with
  | none => fuelStep L
  | some (c, L1) =>
    if c = '"' then buildStep L.cursor (L1.cursor - 1) L1.line .strTok NeMakeNil L1
    else errStep hasOut origin L1 "Unterminated string."

def isHexCont (c : Char) : Bool :=
  ('0' < c ∧ c ≤ '9') || ('a' ≤ c ∧ c ≤ 'f') || ('A' ≤ c ∧ c ≤ 'F')

def hexVal (c : Char) : Nat :=
  if '0' ≤ c ∧ c ≤ '9' then c.toNat - 48
  else if 'a' ≤ c ∧ c ≤ 'f' then c.toNat - 97 + 10
  else c.toNat - 65 + 10

/-- The `\#x` hex-character loop: note the continuation test accepts a
digit only when it is strictly greater than '0' (as the source does); at
most two hex digits are accepted, and the loop must end at a terminator
character. -/
def hexCharLoop (hasOut : Bool) (origin : String) (src : List Char) (s0 : Nat) :
    Nat → Nat → Nat → NeLex → LexStep
  | 0, _, _, L => fuelStep L
  | fuel + 1, ch, maxNumChars, L =>
    let r := nextChar src L
    if isHexCont r.1 then
      let ch1 := (ch * 16 + hexVal r.1) % 256
      if maxNumChars = 0 then errStep hasOut origin r.2 "Unknown character token."
      else hexCharLoop hasOut origin src s0 fuel ch1 (maxNumChars - 1) r.2
    else if ¬ isTermChar r.1 then errStep hasOut origin r.2 "Unknown character token."
    else
      let L1 := ungetChar r.2
      buildStep s0 L1.cursor L1.line .character (NeMakeChar (Char.ofNat ch)) L1

/-- The `\#` decimal-character loop (`ch * 10 + digit` over C `char`). -/
def decCharLoop (hasOut : Bool) (origin : String) (src : List Char) (s0 : Nat) :
    Nat → Nat → NeLex → LexStep
  | 0, _, L => fuelStep L
  | fuel + 1, ch, L =>
    let r := nextChar src L
    if isDigit r.1 then decCharLoop hasOut origin src s0 fuel ((ch * 10 + (r.1.toNat - 48)) % 256) r.2
    else if ¬ isTermChar r.1 then errStep hasOut origin r.2 "Unknown character token."
    else
      let L1 := ungetChar r.2
      buildStep s0 L1.cursor L1.line .character (NeMakeChar (Char.ofNat ch)) L1

/-- The long-name loop of the character branch: lowercase letters extend
the name; a terminator ends it (followed by the `gCharMap` lookup); any
other character is a lex error. -/
def longNameLoop (src : List Char) : Nat → Char → NeLex → Option (Option NeLex)
  | 0, _, _ => none
  | fuel + 1, c, L =>
    if isTermChar c then some (some (ungetChar L))
    else if c.toNat < 97 ∨ c.toNat > 122 then some none
    else
      let r := nextChar src L
      longNameLoop src fuel r.1 r.2

/-- The `gCharMap` search by exact length and text (the token span
includes the leading backslash, as does the recorded name). -/
def charMapLookup (tokenLen : Nat) (slice : List Char) :
    List (List Char × Char) → Option Char
  | [] => none
  | (name, ch) :: rest =>
    if (name.headD NUL).toNat - 48 + 1 = tokenLen ∧ slice = name.tail.take tokenLen
    then some ch
    else charMapLookup tokenLen slice rest

/-- The tail of the character branch shared by the single-character and
long-name cases: `ch` is the candidate single character, and the lexer
state is positioned after the characters consumed so far. -/
def charTail (hasOut : Bool) (origin : String) (src : List Char) (s0 : Nat)
    (ch : Char) (L : NeLex) : LexStep :=
  let r := nextChar src L
  if isTermChar r.1 then
    let L1 := ungetChar r.2
    buildStep s0 L1.cursor L1.line .character (NeMakeChar ch) L1
  else
    match longNameLoop src (src.length + 4) r.1 r.2 with
    | none => fuelStep L
    | some none => errStep hasOut origin r.2 "Unknown character token."
    | some (some L1) =>
      let tokenLen := L1.cursor - s0
      let slice := (src.drop s0).take tokenLen
      match charMapLookup tokenLen slice gCharMap with
      | some c => buildStep s0 L1.cursor L1.line .character (NeMakeChar c) L1
      | none => errStep hasOut origin L1 "Unknown character token."

/-- The character-literal branch of `lexNext` (starting after the leading
backslash has been consumed). -/
def charTok (hasOut : Bool) (origin : String) (src : List Char) (s0 : Nat)
    (L : NeLex) : LexStep :=
  let r := nextChar src L
  if r.1 = NUL ∨ isWs r.1 then errStep hasOut origin r.2 "Invalid character token."
  else
    let ch := r.1
    if r.1 = '#' then
      let r2 := nextChar src r.2
      if isTermChar r2.1 ∨ r2.1 = '#' then
        let L1 := ungetChar r2.2
        buildStep s0 L1.cursor L1.line .character (NeMakeChar '#') L1
      else if r2.1 = 'x' then hexCharLoop hasOut origin src s0 (src.length + 4) 0 2 r2.2
      else if isDigit r2.1 then
        decCharLoop hasOut origin src s0 (src.length + 4) (r2.1.toNat - 48) r2.2
      else charTail hasOut origin src s0 ch r2.2
    else charTail hasOut origin src s0 ch r.2

/-- C source `lexNext`: fetch the next token — skip whitespace and comments, then
try numbers, keywords/symbols, strings, character literals, and finally
the "Unknown token" error. -/
def lexNext (hasOut : Bool) (origin : String) (src : List Char) (L0 : NeLex) :
    LexStep :=
  if L0.cursor ≥ src.length then ⟨.eof, none, L0, []⟩
  else
    match skipLoop src (src.length + 4) (nextChar src L0).1 (nextChar src L0).2 with
    | .fuelOut => fuelStep L0
    | .eof L => ⟨.eof, none, L, []⟩
    | .found c L =>
      if isDigit c || c = '-' || c = '+' then numberTok src (L.cursor - 1) c L
      else if gNameChar c = 1 then nameTok hasOut origin src (L.cursor - 1) c L
      else if c = '"' then stringTok hasOut origin src L
      else if c = '\\' then charTok hasOut origin src (L.cursor - 1) L
      else errStep hasOut origin L "Unknown token"

/-- The token-fetching loop of `lex`: collect lexemes until EOF or an
error; on error the token list built so far is discarded (`arenaDone`). -/
def lexLoop (hasOut : Bool) (origin : String) (src : List Char) :
    Nat → NeLex → List NeLexInfo → List String →
    Option (Bool × List NeLexInfo × List String)
  | 0, _, _, _ => none
  | fuel + 1, L, acc, outs =>
    match (lexNext hasOut origin src L).tok with
    | .eof => some (true, acc, outs ++ (lexNext hasOut origin src L).out)
    | .error => some (false, [], outs ++ (lexNext hasOut origin src L).out)
    | .fuelOut => none
    | _ =>
      lexLoop hasOut origin src fuel (lexNext hasOut origin src L).lexSt
        (acc ++ (lexNext hasOut origin src L).info.toList)
        (outs ++ (lexNext hasOut origin src L).out)

/-- C source `lex`: scan a whole source span into a token list; `none` marks fuel
exhaustion of the embedding (never reached by these theorems' inputs). -/
def lex (hasOut : Bool) (origin : String) (src : List Char) :
    Option (Bool × List NeLexInfo × List String) :=
  lexLoop hasOut origin src (src.length + 2) ⟨1, 1, 0, 0⟩ [] []

/-! ## Reader and execution (`nextAtom`, `eval`, `NeRun`, nerd.c) -/

/-- C source `nextAtom`: turn one lexeme into a value.  Number and Character
lexemes carry their pre-resolved atom; `yes`/`no` become Booleans; String
lexemes construct a string object from the raw span (escape decoding
happens here); every other token kind is a read error (`none`). -/
def nextAtom (src : List Char) (t : NeLexInfo) : Option Atom :=
  match t.tok with
  | .number => some t.atom
  | .character => some t.atom
  | .yesKw => some (NeMakeBool true)
  | .noKw => some (NeMakeBool false)
  | .strTok => some (.obj (stringCreateFill ((src.drop t.startO).take (t.endO - t.startO))))
  | _ => none

/-- C source `eval`: Nil, Integer, Boolean, and Character evaluate to themselves;
an Object dispatches through its type's evaluate callback — the string
type has none, so it also self-evaluates. -/
def eval : Atom → Option Atom
  | .nil => some .nil
  | .int i => some (.int i)
  | .bool b => some (.bool b)
  | .char c => some (.char c)
  | .obj p => some (.obj p)

/-- The read/evaluate loop of `NeRun`, threading the result value: a
failed read returns failure leaving the previous value in the output slot;
a failed evaluate returns failure leaving the read value there. -/
def runToks (src : List Char) : List NeLexInfo → Atom → List String →
    Bool × Atom × List String
  | [], result, outs => (true, result, outs)
  | t :: rest, result, outs =>
    match nextAtom src t with
    | none => (false, result, outs)
    | some a =>
      match eval a with
      | none => (false, a, outs)
      | some r => runToks src rest r outs

/-- C source `NeRun`: set the output slot to Nil, lex the whole input, then read
and evaluate each token in turn.  The result is (success, final value,
output-callback messages). -/
def NeRun (hasOut : Bool) (origin : String) (src : List Char) :
    Bool × Atom × List String :=
  match lex hasOut origin src with
  | none => (false, NeMakeNil, [])
  | some (false, _, outs) => (false, NeMakeNil, outs)
  | some (true, toks, outs) => runToks src toks NeMakeNil outs

/-! ## Concrete states used by counterexamples and witnesses -/

/-- An arena whose cursor is not 16-byte aligned (base address taken
16-byte aligned, as `malloc` results are). -/
def arenaC5 : Arena := ⟨0, 4096, 1, -1, fun _ => 0⟩

/-- A full 4096-byte arena (cursor at the end), about to grow. -/
def arenaC6 : Arena := ⟨0, 4096, 4096, -1, fun _ => 0⟩

/-- A 16-byte-aligned arena state. -/
def arenaAligned : Arena := ⟨0, 4096, 32, -1, fun _ => 0⟩

end Nerd

namespace Nerd

/-! ## Theorems -/

/-- C1 (counterexample).  The claim says `NeRun` on `"nil"` succeeds
and produces Nil; in the code `nil` lexes to the Nil keyword token, but
`nextAtom` has no case for it, so the read fails and `NeRun` returns
failure (with Nil, the initial value, left in the output slot). -/
theorem C1_nil_run_fails :
    NeRun true "test" ("nil".data) = (false, Atom.nil, []) ∧
    (NeRun true "test" ("nil".data)).1 ≠ true := by decide

/-- C1 (amended).  On every VM (any output configuration and origin
label), running `"yes"` succeeds with Boolean true and `"no"` succeeds
with Boolean false; running `"nil"` lexes the nil keyword token but then
fails with a read error, leaving Nil in the output slot. -/
theorem C1_yes_no_nil (hasOut : Bool) (origin : String) :
    NeRun hasOut origin ("yes".data) = (true, Atom.bool true, []) ∧
    NeRun hasOut origin ("no".data) = (true, Atom.bool false, []) ∧
    NeRun hasOut origin ("nil".data) = (false, Atom.nil, []) :=
  ⟨rfl, rfl, rfl⟩

/-- C4 (code bug).  On the raw span `\\\` (three backslashes) the
counting pass of `stringCreate` computes output length 2 — it counts both
overlapping backslash pairs — while the fill pass writes only 1 byte,
violating the code's own `assert(j == len)`; the escape table itself works
as claimed (shown on `Hello\nWorld`). -/
theorem C4_stringCreate_pass_mismatch :
    stringCreateLen ['\\', '\\', '\\'] = 2 ∧
    (stringCreateFill ['\\', '\\', '\\']).length = 1 ∧
    stringCreateLen ['\\', '\\', '\\'] ≠ (stringCreateFill ['\\', '\\', '\\']).length ∧
    stringCreateFill ("Hello\\nWorld".data) = "Hello\nWorld".data ∧
    stringCreateLen ("Hello\\nWorld".data) = 11 := by decide

/-- C7 (counterexample).  On the unterminated string `"abc` the lex
pass fails, but the configured output callback is invoked three times
(`lexErrorV` issues three separate `NeOut` calls), not exactly once. -/
theorem C7_not_exactly_once :
    lex true "test" ("\"abc".data) =
      some (false, [], ["test(1): LEX ERROR: ", "Unterminated string.", "\n"]) ∧
    ¬ (["test(1): LEX ERROR: ", "Unterminated string.", "\n"].length = 1) := by decide

/-- C8 (code bug).  `\#x41` lexes to one Character token with value
'A' as claimed, but the hex continuation test accepts only digits strictly
greater than '0', so `\#x20` — the example in the code's own comment — is
a lex error instead of a Character token with value 0x20. -/
theorem C8_hex_digit_zero_rejected :
    lex true "test" ("\\#x41".data) =
      some (true, [⟨0, 5, 1, .character, .char 'A'⟩], []) ∧
    lex true "test" ("\\#x20".data) =
      some (false, [], ["test(1): LEX ERROR: ", "Unknown character token.", "\n"]) := by decide

/-- C9 (code bug).  `"42"` and `"-7"` lex to single Number tokens with
values 42 and −7 as claimed, but a bare `"-"` — which has no digit after
the sign — is also accepted as a Number token, with garbage value 48:
state 2 of the machine treats the end-of-input character unconditionally
as a digit (`0 - '0' = -48`, negated by the sign). -/
theorem C9_sign_without_digit_accepted :
    lex true "test" ("42".data) = some (true, [⟨0, 2, 1, .number, .int 42⟩], []) ∧
    lex true "test" ("-7".data) = some (true, [⟨0, 2, 1, .number, .int (-7)⟩], []) ∧
    lex true "test" ("-".data) = some (true, [⟨0, 1, 1, .number, .int 48⟩], []) := by decide

/-- C3.  When the create callback fails, `NeObjectCreate` tears the
object down — the type's delete callback runs on the block and the block
is freed — returns failure, and the VM's GC list is exactly what it was
before the call. -/
theorem C3_create_failure_rollback (s : GcState) :
    (NeObjectCreate true false true s).1 = none ∧
    ((NeObjectCreate true false true s).2).gcObjs = s.gcObjs ∧
    ((NeObjectCreate true false true s).2).deleted = s.deleted ++ [s.nextAddr] ∧
    ((NeObjectCreate true false true s).2).freed = s.freed ++ [s.nextAddr] := by
  simp [NeObjectCreate, objectDelete]

/-- C5 (counterexample).  `arenaPush` 16-byte-aligns the cursor before
writing the restore header, and `arenaPop` returns to the header position,
so a push/pop pair started at unaligned cursor 1 leaves the cursor at 16,
not at 1 as the claim requires. -/
theorem C5_unaligned_cursor_not_restored :
    (arenaPop (arenaPush arenaC5)).cursor = 16 ∧
    (arenaPop (arenaPush arenaC5)).cursor ≠ 1 := by decide

/-- C6 (counterexample).  A full 4096-byte arena allocating 5000 bytes
grows to total size 4096 + max(4096+5000, 4096) = 13192 — not the
4096 + max(2·4096, 5000, 4096) = 12288 the claim's formula gives — and a
second 5000-byte allocation does trigger further growth. -/
theorem C6_growth_formula_wrong :
    ((arenaAlloc 5000 arenaC6).2).size = 13192 ∧
    specGrownSize 4096 5000 = 12288 ∧
    ((arenaAlloc 5000 arenaC6).2).size ≠ specGrownSize 4096 5000 ∧
    ((arenaAlloc 5000 ((arenaAlloc 5000 arenaC6).2)).2).size ≠
      ((arenaAlloc 5000 arenaC6).2).size := by decide

/-! ### Supporting lemmas for the GC teardown order (C2) -/

lemma NeCloseLoop_deleted (l : List Nat) : ∀ (s : GcState),
    (NeCloseLoop true s l).deleted = s.deleted ++ l := by
  induction l with
  | nil => intro s; simp [NeCloseLoop]
  | cons id rest ih =>
    intro s
    rw [NeCloseLoop, ih]
    simp [objectDelete]

lemma create_ok_state (s : GcState) :
    (NeObjectCreate true true true s).2 =
      { s with gcObjs := s.nextAddr :: s.gcObjs, nextAddr := s.nextAddr + 1 } := by
  simp [NeObjectCreate]

lemma create_fail_state (s : GcState) :
    (NeObjectCreate true false true s).2 =
      { s with nextAddr := s.nextAddr + 1,
               deleted := s.deleted ++ [s.nextAddr],
               freed := s.freed ++ [s.nextAddr] } := by
  simp [NeObjectCreate, objectDelete]

lemma runCreates_fields (outs : List Bool) : ∀ (s : GcState),
    (runCreates outs s).gcObjs = (okIdsFrom s.nextAddr outs).reverse ++ s.gcObjs ∧
    (runCreates outs s).nextAddr = s.nextAddr + outs.length := by
  induction outs with
  | nil => intro s; simp [runCreates, okIdsFrom]
  | cons ok rest ih =>
    intro s
    have hstep : runCreates (ok :: rest) s =
        runCreates rest ((NeObjectCreate true ok true s).2) := by
      simp [runCreates]
    cases ok with
    | true =>
      rw [hstep, create_ok_state]
      rcases ih { s with gcObjs := s.nextAddr :: s.gcObjs, nextAddr := s.nextAddr + 1 }
        with ⟨h1, h2⟩
      refine ⟨?_, ?_⟩
      · rw [h1]; simp [okIdsFrom, List.append_assoc]
      · rw [h2]; simp; omega
    | false =>
      rw [hstep, create_fail_state]
      rcases ih { s with nextAddr := s.nextAddr + 1,
                         deleted := s.deleted ++ [s.nextAddr],
                         freed := s.freed ++ [s.nextAddr] } with ⟨h1, h2⟩
      refine ⟨?_, ?_⟩
      · rw [h1]; simp [okIdsFrom]
      · rw [h2]; simp; omega

lemma okIdsFrom_ge (outs : List Bool) : ∀ (n m : Nat), m ∈ okIdsFrom n outs → n ≤ m := by
  induction outs with
  | nil => intro n m h; simp [okIdsFrom] at h
  | cons ok rest ih =>
    intro n m h
    cases ok with
    | true =>
      simp [okIdsFrom] at h
      rcases h with h | h
      · omega
      · have := ih (n + 1) m h; omega
    | false =>
      simp [okIdsFrom] at h
      have := ih (n + 1) m h; omega

lemma okIdsFrom_nodup (outs : List Bool) : ∀ (n : Nat), (okIdsFrom n outs).Nodup := by
  induction outs with
  | nil => intro n; simp [okIdsFrom]
  | cons ok rest ih =>
    intro n
    cases ok with
    | true =>
      simp only [okIdsFrom, if_pos, List.singleton_append, List.nodup_cons]
      exact ⟨fun hmem => by have := okIdsFrom_ge rest (n + 1) n hmem; omega, ih (n + 1)⟩
    | false =>
      simpa [okIdsFrom] using ih (n + 1)

/-- C2.  For any sequence of `NeObjectCreate` calls (with arbitrary
create-callback outcomes) on a fresh VM followed by `NeClose`, the
delete-callback invocations made during Close are exactly the reverse of
the successful creations — most recently created first — and that
invocation list has no duplicates, so each successfully created object's
delete callback runs exactly once during Close. -/
theorem C2_close_deletes_in_reverse_creation_order (outs : List Bool) :
    (NeClose true (runCreates outs gcInit)).deleted =
      (runCreates outs gcInit).deleted ++ (okIdsFrom 0 outs).reverse ∧
    ((okIdsFrom 0 outs).reverse).Nodup := by
  constructor
  · have hg : (runCreates outs gcInit).gcObjs = (okIdsFrom 0 outs).reverse := by
      have h := (runCreates_fields outs gcInit).1
      simpa [gcInit] using h
    rw [NeClose]
    simp only
    rw [NeCloseLoop_deleted, hg]
  · simpa using okIdsFrom_nodup outs 0

/-! ### Supporting lemmas for the arena push/pop discipline (C5) -/

lemma alloc_spec (n : Nat) (a : Arena) :
    (arenaAlloc n a).1 = a.cursor ∧
    (arenaAlloc n a).2.cursor = a.cursor + n ∧
    (arenaAlloc n a).2.base = a.base ∧
    (arenaAlloc n a).2.restore = a.restore ∧
    (arenaAlloc n a).2.mem = a.mem := by
  unfold arenaAlloc arenaEnsureSpace
  split <;> simp

lemma align_spec (a : Arena) :
    (arenaAlign a).base = a.base ∧ (arenaAlign a).restore = a.restore ∧
    (arenaAlign a).mem = a.mem ∧ a.cursor ≤ (arenaAlign a).cursor ∧
    (a.base + (arenaAlign a).cursor) % 16 = 0 := by
  unfold arenaAlign
  split
  · rcases alloc_spec (16 - (a.base + a.cursor) % 16) a with ⟨_, h2, h3, h4, h5⟩
    refine ⟨h3, h4, h5, ?_, ?_⟩ <;> rw [h2] <;> omega
  · refine ⟨rfl, rfl, rfl, le_refl _, ?_⟩; omega

lemma align_cursor_of_aligned (a : Arena) (h : (a.base + a.cursor) % 16 = 0) :
    (arenaAlign a).cursor = a.cursor := by
  unfold arenaAlign
  rw [if_neg (by simp [h])]

lemma push_spec (a : Arena) :
    (arenaPush a).base = a.base ∧
    (arenaPush a).cursor = (arenaAlign a).cursor + 16 ∧
    (arenaPush a).restore = ((arenaAlign a).cursor : Int) ∧
    (arenaPush a).mem ((arenaAlign a).cursor + 8) = a.restore ∧
    (∀ o, o ≠ (arenaAlign a).cursor → o ≠ (arenaAlign a).cursor + 8 →
      (arenaPush a).mem o = a.mem o) := by
  rcases align_spec a with ⟨hb, hr, hm, _, _⟩
  rcases alloc_spec 16 (arenaAlign a) with ⟨h1, h2, h3, h4, h5⟩
  unfold arenaPush
  refine ⟨by rw [h3, hb], by rw [h2], by rw [h1], ?_, ?_⟩
  · simp only [h1, h4, hr]
    have hne : (arenaAlign a).cursor + 8 ≠ (arenaAlign a).cursor := by omega
    rw [if_neg hne]
    simp
  · intro o ho1 ho2
    simp only [h1, h5, hm]
    rw [if_neg ho1, if_neg ho2]

lemma pop_fields (a : Arena) :
    (arenaPop a).cursor = a.restore.toNat ∧
    (arenaPop a).restore = a.mem (a.restore.toNat + 8) ∧
    (arenaPop a).base = a.base ∧
    (∀ o, o ≠ a.restore.toNat → (arenaPop a).mem o = a.mem o) := by
  refine ⟨rfl, rfl, rfl, ?_⟩
  intro o ho
  simp only [arenaPop]
  rw [if_neg ho]

lemma pushPop_aux : ∀ (k : Nat) (a : Arena),
    (arenaPop^[k + 1] (arenaPush^[k + 1] a)).cursor = (arenaAlign a).cursor ∧
    (arenaPop^[k + 1] (arenaPush^[k + 1] a)).restore = a.restore ∧
    (arenaPop^[k + 1] (arenaPush^[k + 1] a)).base = a.base ∧
    ∀ o, o < (arenaAlign a).cursor →
      (arenaPop^[k + 1] (arenaPush^[k + 1] a)).mem o = a.mem o := by
  intro k
  induction k with
  | zero =>
    intro a
    rcases push_spec a with ⟨pb, pc, pr, pm8, pmo⟩
    rcases pop_fields (arenaPush a) with ⟨qc, qr, qb, qm⟩
    simp only [Nat.zero_add, Function.iterate_one]
    have hrt : (arenaPush a).restore.toNat = (arenaAlign a).cursor := by
      rw [pr]; omega
    refine ⟨by rw [qc, hrt], by rw [qr, hrt, pm8], by rw [qb, pb], ?_⟩
    intro o ho
    have ho1 : o ≠ (arenaAlign a).cursor := by omega
    have ho2 : o ≠ (arenaAlign a).cursor + 8 := by omega
    rw [qm o (by rw [hrt]; exact ho1), pmo o ho1 ho2]
  | succ k ih =>
    intro a
    rcases push_spec a with ⟨pb, pc, pr, pm8, pmo⟩
    have hba : ((arenaPush a).base + (arenaPush a).cursor) % 16 = 0 := by
      rw [pb, pc]
      have h16 := (align_spec a).2.2.2.2
      omega
    have halignb : (arenaAlign (arenaPush a)).cursor = (arenaAlign a).cursor + 16 := by
      rw [align_cursor_of_aligned _ hba, pc]
    rcases ih (arenaPush a) with ⟨sc, sr, sb, sm⟩
    have hiter1 : arenaPush^[k + 1 + 1] a = arenaPush^[k + 1] (arenaPush a) :=
      Function.iterate_succ_apply arenaPush (k + 1) a
    have hiter2 : ∀ y : Arena, arenaPop^[k + 1 + 1] y = arenaPop (arenaPop^[k + 1] y) :=
      fun y => Function.iterate_succ_apply' arenaPop (k + 1) y
    rw [hiter1, hiter2]
    rcases pop_fields (arenaPop^[k + 1] (arenaPush^[k + 1] (arenaPush a))) with ⟨qc, qr, qb, qm⟩
    have hrt : (arenaPop^[k + 1] (arenaPush^[k + 1] (arenaPush a))).restore.toNat =
        (arenaAlign a).cursor := by
      rw [sr, pr]; omega
    refine ⟨by rw [qc, hrt], ?_, by rw [qb, sb, pb], ?_⟩
    · rw [qr, hrt, sm ((arenaAlign a).cursor + 8) (by rw [halignb]; omega), pm8]
    · intro o ho
      rw [qm o (by rw [hrt]; omega), sm o (by rw [halignb]; omega),
        pmo o (by omega) (by omega)]

/-- C5 (amended).  For every arena state and every k ≥ 1, after k
`arenaPush` calls followed by k `arenaPop` calls the cursor equals the
16-byte-aligned cursor value taken by the first push (`arenaAlign`) — so
it equals the cursor immediately before the first push exactly when the
buffer address plus that cursor was already 16-byte aligned. -/
theorem C5_push_pop_restores_aligned_cursor (a : Arena) (k : Nat) (hk : 1 ≤ k) :
    (arenaPop^[k] (arenaPush^[k] a)).cursor = (arenaAlign a).cursor := by
  obtain ⟨j, rfl⟩ : ∃ j, k = j + 1 := ⟨k - 1, by omega⟩
  exact (pushPop_aux j a).1

/-- Witness for C5: a concrete aligned arena with one push and one pop;
the aligned cursor equals the original cursor 32 there. -/
theorem C5_push_pop_witness :
    1 ≤ 1 ∧
    (arenaPop^[1] (arenaPush^[1] arenaAligned)).cursor = (arenaAlign arenaAligned).cursor ∧
    (arenaAlign arenaAligned).cursor = 32 :=
  ⟨by decide, C5_push_pop_restores_aligned_cursor arenaAligned 1 (by decide), by decide⟩

/-- C6 (amended).  When `alloc(n)` would overflow the buffer of a
well-formed arena (cursor within the buffer), the buffer grows by exactly
`max (currentSize + n) 4096` bytes beyond the current size, the
allocation succeeds at the old cursor with nothing truncated (the
allocated bytes lie inside the grown buffer), and a later `alloc` of that
same size needs no further growth provided `n` is at most the
pre-growth size; `arenaFormatV` likewise never truncates — it commits its
full rendering inside the (possibly grown) buffer. -/
lemma ensure_grow (n : Nat) (a : Arena) (h : a.size < a.cursor + n) :
    arenaEnsureSpace n a = { a with size := a.size + max (a.size + n) 4096 } := by
  unfold arenaEnsureSpace
  rw [if_pos h]

lemma ensure_stay (n : Nat) (a : Arena) (h : ¬ a.size < a.cursor + n) :
    arenaEnsureSpace n a = a := by
  unfold arenaEnsureSpace
  rw [if_neg h]

lemma alloc_grow_eq (n : Nat) (a : Arena) (h : a.size < a.cursor + n) :
    arenaAlloc n a =
      (a.cursor, { a with size := a.size + max (a.size + n) 4096, cursor := a.cursor + n }) := by
  unfold arenaAlloc
  rw [ensure_grow n a h]

lemma alloc_stay_eq (n : Nat) (a : Arena) (h : ¬ a.size < a.cursor + n) :
    arenaAlloc n a = (a.cursor, { a with cursor := a.cursor + n }) := by
  unfold arenaAlloc
  rw [ensure_stay n a h]

lemma alloc_within (n : Nat) (a : Arena) (hwf : a.cursor ≤ a.size) :
    (arenaAlloc n a).2.cursor ≤ (arenaAlloc n a).2.size := by
  by_cases h : a.size < a.cursor + n
  · rw [alloc_grow_eq n a h]
    have hmax := Nat.le_max_left (a.size + n) 4096
    simp
    omega
  · rw [alloc_stay_eq n a h]
    simp
    omega

theorem C6_growth_amended (a : Arena) (n : Nat) (s : List Char)
    (hover : a.size < a.cursor + n) (hwf : a.cursor ≤ a.size) :
    (arenaAlloc n a).2.size = a.size + max (a.size + n) 4096 ∧
    (arenaAlloc n a).1 = a.cursor ∧
    (arenaAlloc n a).2.cursor = a.cursor + n ∧
    (arenaAlloc n a).2.cursor ≤ (arenaAlloc n a).2.size ∧
    (n ≤ a.size → (arenaAlloc n ((arenaAlloc n a).2)).2.size = (arenaAlloc n a).2.size) ∧
    (arenaFormatV s a).1 = s.length ∧
    (arenaFormatV s a).2.cursor ≤ (arenaFormatV s a).2.size := by
  have hmax := Nat.le_max_left (a.size + n) 4096
  rw [alloc_grow_eq n a hover]
  refine ⟨rfl, rfl, rfl, by simp; omega, ?_, ?_, ?_⟩
  · intro hn
    rw [alloc_stay_eq n _ (by simp; omega)]
  · unfold arenaFormatV
    split <;> rfl
  · unfold arenaFormatV
    split
    · exact alloc_within s.length a hwf
    · refine alloc_within (s.length + 1) (arenaEnsureSpace (s.length + 1) a) ?_
      by_cases hg : a.size < a.cursor + (s.length + 1)
      · rw [ensure_grow _ _ hg]
        have := Nat.le_max_left (a.size + (s.length + 1)) 4096
        simp
        omega
      · rw [ensure_stay _ _ hg]
        exact hwf

/-- Witness for C6 at a concrete arena (size 4096, cursor 4000) with a
500-byte overflowing allocation and a 500-character formatting call. -/
theorem C6_growth_amended_witness :
    (arenaAlloc 500 (Arena.mk 0 4096 4000 (-1) fun _ => 0)).2.size = 4096 + max (4096 + 500) 4096 ∧
    (arenaAlloc 500 (Arena.mk 0 4096 4000 (-1) fun _ => 0)).1 = 4000 ∧
    (arenaAlloc 500 (Arena.mk 0 4096 4000 (-1) fun _ => 0)).2.cursor = 4000 + 500 ∧
    (arenaAlloc 500 (Arena.mk 0 4096 4000 (-1) fun _ => 0)).2.cursor ≤
      (arenaAlloc 500 (Arena.mk 0 4096 4000 (-1) fun _ => 0)).2.size ∧
    (500 ≤ 4096 →
      (arenaAlloc 500 ((arenaAlloc 500 (Arena.mk 0 4096 4000 (-1) fun _ => 0)).2)).2.size =
        (arenaAlloc 500 (Arena.mk 0 4096 4000 (-1) fun _ => 0)).2.size) ∧
    (arenaFormatV (List.replicate 500 'x') (Arena.mk 0 4096 4000 (-1) fun _ => 0)).1 =
      (List.replicate 500 'x').length ∧
    (arenaFormatV (List.replicate 500 'x') (Arena.mk 0 4096 4000 (-1) fun _ => 0)).2.cursor ≤
      (arenaFormatV (List.replicate 500 'x') (Arena.mk 0 4096 4000 (-1) fun _ => 0)).2.size :=
  C6_growth_amended (Arena.mk 0 4096 4000 (-1) fun _ => 0) 500 (List.replicate 500 'x')
    (by decide) (by decide)

/-- C10.  For every source buffer (and VM output configuration and
origin) whose lex pass succeeds with zero tokens, `NeRun` returns success
and writes Nil to the output result slot. -/
theorem C10_empty_token_list_runs_to_nil (hasOut : Bool) (origin : String)
    (src : List Char) (outs : List String)
    (h : lex hasOut origin src = some (true, [], outs)) :
    NeRun hasOut origin src = (true, Atom.nil, outs) := by
  unfold NeRun
  rw [h]
  rfl

/-- Witness for C10: the empty source lexes to zero tokens, and `NeRun`
yields success with Nil. -/
theorem C10_witness :
    lex true "test" [] = some (true, [], []) ∧
    NeRun true "test" [] = (true, Atom.nil, []) :=
  ⟨by decide, C10_empty_token_list_runs_to_nil true "test" [] [] (by decide)⟩

/-! ### Supporting lemmas for the unterminated-string diagnostic (C7) -/

lemma strScan_no_terminator (src : List Char) :
    ∀ (fuel : Nat) (L : NeLex), L.cursor ≤ src.length →
      src.length + 2 ≤ fuel + L.cursor →
      (∀ j, L.cursor ≤ j → j < src.length →
        src.getD j NUL ≠ '"' ∧ src.getD j NUL ≠ Char.ofNat 10 ∧
          src.getD j NUL ≠ Char.ofNat 13) →
      ∃ L', strScan src fuel (nextChar src L).1 (nextChar src L).2 = some (NUL, L') ∧
        L'.line = L.line := by
  intro fuel
  induction fuel with
  | zero => intro L hc hf hs; omega
  | succ f ih =>
    intro L hc hf hs
    by_cases hend : L.cursor ≥ src.length
    · have hnc : nextChar src L = (NUL, bumpLast L) := by
        unfold nextChar
        rw [if_pos hend]
      rw [hnc]
      exact ⟨bumpLast L, by simp [strScan], rfl⟩
    · push_neg at hend
      have hj := hs L.cursor (le_refl _) hend
      have hnc : nextChar src L =
          (src.getD L.cursor NUL, { bumpLast L with cursor := L.cursor + 1 }) := by
        unfold nextChar
        rw [if_neg (by omega), if_neg (not_or.mpr ⟨hj.2.2, hj.2.1⟩)]
      rw [hnc]
      simp only [strScan]
      by_cases hcn : src.getD L.cursor NUL = NUL
      · rw [if_pos (Or.inl hcn)]
        exact ⟨{ bumpLast L with cursor := L.cursor + 1 }, by rw [hcn], rfl⟩
      · rw [if_neg (by push_neg; exact ⟨hcn, hj.2.1, hj.1⟩)]
        obtain ⟨L', hsc, hl⟩ := ih { bumpLast L with cursor := L.cursor + 1 }
          (by simp; omega) (by simp; omega)
          (fun j hj1 hj2 => hs j (by simp at hj1; omega) hj2)
        exact ⟨L', hsc, hl⟩

lemma skipLoop_found (src : List Char) (c : Char) (L : NeLex) (fuel : Nat)
    (h1 : 1 ≤ fuel) (h2 : c ≠ NUL) (h3 : isWs c = false) (h4 : c ≠ ';')
    (h5 : c ≠ '#') : skipLoop src fuel c L = .found c L := by
  obtain ⟨f, rfl⟩ : ∃ f, fuel = f + 1 := ⟨fuel - 1, by omega⟩
  simp only [skipLoop]
  rw [if_neg h2, if_neg (by simp [h3]), if_neg h4, if_neg h5]

lemma lexLoop_error (hasOut : Bool) (origin : String) (src : List Char)
    (fuel : Nat) (L : NeLex) (acc : List NeLexInfo) (outs : List String)
    (h1 : 1 ≤ fuel) (htok : (lexNext hasOut origin src L).tok = .error) :
    lexLoop hasOut origin src fuel L acc outs =
      some (false, [], outs ++ (lexNext hasOut origin src L).out) := by
  obtain ⟨f, rfl⟩ : ∃ f, fuel = f + 1 := ⟨fuel - 1, by omega⟩
  simp only [lexLoop]
  rw [htok]

lemma nextChar_plain (src : List Char) (L : NeLex) (hcur : L.cursor < src.length)
    (hn13 : src.getD L.cursor NUL ≠ Char.ofNat 13)
    (hn10 : src.getD L.cursor NUL ≠ Char.ofNat 10) :
    nextChar src L = (src.getD L.cursor NUL, { bumpLast L with cursor := L.cursor + 1 }) := by
  unfold nextChar
  rw [if_neg (by omega), if_neg (not_or.mpr ⟨hn13, hn10⟩)]

lemma nextChar_newline (src : List Char) (L : NeLex) (hcur : L.cursor < src.length)
    (h : src.getD L.cursor NUL = Char.ofNat 10 ∨ src.getD L.cursor NUL = Char.ofNat 13) :
    ∃ L2, nextChar src L = (Char.ofNat 10, L2) ∧ L2.line = L.line + 1 := by
  unfold nextChar
  rw [if_neg (by omega), if_pos h.symm]
  rcases h with h | h
  · rw [if_neg (by rw [h]; decide)]
    exact ⟨_, rfl, rfl⟩
  · rw [if_pos h]
    split
    · exact ⟨_, rfl, rfl⟩
    · exact ⟨_, rfl, rfl⟩

lemma strScan_to_newline (src : List Char) :
    ∀ (fuel : Nat) (L : NeLex) (m : Nat), L.cursor ≤ m → m < src.length →
      src.length + 2 ≤ fuel + L.cursor →
      (∀ j, L.cursor ≤ j → j < m →
        src.getD j NUL ≠ '"' ∧ src.getD j NUL ≠ Char.ofNat 10 ∧
          src.getD j NUL ≠ Char.ofNat 13 ∧ src.getD j NUL ≠ NUL) →
      (src.getD m NUL = Char.ofNat 10 ∨ src.getD m NUL = Char.ofNat 13) →
      ∃ L', strScan src fuel (nextChar src L).1 (nextChar src L).2 =
          some (Char.ofNat 10, L') ∧ L'.line = L.line + 1 := by
  intro fuel
  induction fuel with
  | zero => intro L m h1 h2 h3 hclean hterm; omega
  | succ f ih =>
    intro L m h1 h2 h3 hclean hterm
    by_cases hcm : L.cursor = m
    · obtain ⟨L2, hnc, hl2⟩ := nextChar_newline src L (by omega) (by rw [hcm]; exact hterm)
      refine ⟨L2, ?_, hl2⟩
      rw [hnc]
      simp only [strScan]
      rw [if_pos (by decide)]
    · have hlt : L.cursor < m := by omega
      have hj := hclean L.cursor (le_refl _) hlt
      rw [nextChar_plain src L (by omega) hj.2.2.1 hj.2.1]
      simp only [strScan]
      rw [if_neg (by push_neg; exact ⟨hj.2.2.2, hj.2.1, hj.1⟩)]
      obtain ⟨L', hsc, hl⟩ := ih { bumpLast L with cursor := L.cursor + 1 } m
        (by simp; omega) h2 (by simp; omega)
        (fun j hj1 hj2 => hclean j (by simp at hj1; omega) hj2) hterm
      exact ⟨L', hsc, hl⟩

lemma stringTok_unterminated_eof (origin : String) (src : List Char) (L : NeLex)
    (hc : L.cursor ≤ src.length)
    (hclean : ∀ j, L.cursor ≤ j → j < src.length →
      src.getD j NUL ≠ '"' ∧ src.getD j NUL ≠ Char.ofNat 10 ∧
        src.getD j NUL ≠ Char.ofNat 13) :
    ∃ L', stringTok true origin src L = errStep true origin L' "Unterminated string." ∧
      L'.line = L.line := by
  obtain ⟨L', hscan, hline⟩ :=
    strScan_no_terminator src (src.length + 4) L hc (by omega) hclean
  refine ⟨L', ?_, hline⟩
  unfold stringTok
  rw [hscan]
  dsimp only
  rw [if_neg (by decide)]

lemma stringTok_unterminated_nl (origin : String) (src : List Char) (L : NeLex) (m : Nat)
    (h1 : L.cursor ≤ m) (h2 : m < src.length)
    (hclean : ∀ j, L.cursor ≤ j → j < m →
      src.getD j NUL ≠ '"' ∧ src.getD j NUL ≠ Char.ofNat 10 ∧
        src.getD j NUL ≠ Char.ofNat 13 ∧ src.getD j NUL ≠ NUL)
    (hterm : src.getD m NUL = Char.ofNat 10 ∨ src.getD m NUL = Char.ofNat 13) :
    ∃ L', stringTok true origin src L = errStep true origin L' "Unterminated string." ∧
      L'.line = L.line + 1 := by
  obtain ⟨L', hscan, hline⟩ :=
    strScan_to_newline src (src.length + 4) L m h1 h2 (by omega) hclean hterm
  refine ⟨L', ?_, hline⟩
  unfold stringTok
  rw [hscan]
  dsimp only
  rw [if_neg (by decide)]

lemma lexNext_quote (origin : String) (src : List Char) (L : NeLex)
    (hcur : L.cursor < src.length) (hq : src.getD L.cursor NUL = '"') :
    lexNext true origin src L =
      stringTok true origin src { bumpLast L with cursor := L.cursor + 1 } := by
  have hnc : nextChar src L = ('"', { bumpLast L with cursor := L.cursor + 1 }) := by
    rw [nextChar_plain src L hcur (by rw [hq]; decide) (by rw [hq]; decide), hq]
  unfold lexNext
  rw [if_neg (by omega)]
  rw [hnc]
  simp only
  rw [skipLoop_found src '"' _ _ (by omega) (by decide) (by decide) (by decide) (by decide)]
  simp only
  rw [if_neg (by decide), if_neg (by decide)]
  simp

lemma lexNext_unterm_eof (origin : String) (src : List Char) (L : NeLex)
    (hcur : L.cursor < src.length) (hq : src.getD L.cursor NUL = '"')
    (hclean : ∀ j, L.cursor + 1 ≤ j → j < src.length →
      src.getD j NUL ≠ '"' ∧ src.getD j NUL ≠ Char.ofNat 10 ∧
        src.getD j NUL ≠ Char.ofNat 13) :
    ∃ L', lexNext true origin src L = errStep true origin L' "Unterminated string." ∧
      L'.line = L.line := by
  rw [lexNext_quote origin src L hcur hq]
  obtain ⟨L', h, hl⟩ := stringTok_unterminated_eof origin src
    { bumpLast L with cursor := L.cursor + 1 } (by simp; omega)
    (fun j hj1 hj2 => hclean j (by simp at hj1; omega) hj2)
  exact ⟨L', h, hl⟩

lemma lexNext_unterm_nl (origin : String) (src : List Char) (L : NeLex) (m : Nat)
    (hcur : L.cursor < src.length) (hq : src.getD L.cursor NUL = '"')
    (hm1 : L.cursor + 1 ≤ m) (hm2 : m < src.length)
    (hclean : ∀ j, L.cursor + 1 ≤ j → j < m →
      src.getD j NUL ≠ '"' ∧ src.getD j NUL ≠ Char.ofNat 10 ∧
        src.getD j NUL ≠ Char.ofNat 13 ∧ src.getD j NUL ≠ NUL)
    (hterm : src.getD m NUL = Char.ofNat 10 ∨ src.getD m NUL = Char.ofNat 13) :
    ∃ L', lexNext true origin src L = errStep true origin L' "Unterminated string." ∧
      L'.line = L.line + 1 := by
  rw [lexNext_quote origin src L hcur hq]
  obtain ⟨L', h, hl⟩ := stringTok_unterminated_nl origin src
    { bumpLast L with cursor := L.cursor + 1 } m (by simp; omega) hm2
    (fun j hj1 hj2 => hclean j (by simp at hj1; omega) hj2) hterm
  exact ⟨L', h, hl⟩

lemma getD_cons_tail_mem (x : Char) (s tail : List Char) (j : Nat)
    (h1 : 1 ≤ j) (h2 : j < s.length + 1) :
    (x :: (s ++ tail)).getD j NUL ∈ s := by
  obtain ⟨j', rfl⟩ : ∃ j', j = j' + 1 := ⟨j - 1, by omega⟩
  have hlt : j' < s.length := by omega
  have hgd : (x :: (s ++ tail)).getD (j' + 1) NUL = s.getD j' NUL := by
    show (s ++ tail).getD j' NUL = s.getD j' NUL
    exact List.getD_append s tail NUL j' hlt
  rw [hgd, List.getD_eq_getElem s NUL hlt]
  exact List.getElem_mem hlt

lemma lex_unterminated_eof (origin : String) (s : List Char)
    (hs : ∀ c ∈ s, c ≠ '"' ∧ c ≠ Char.ofNat 10 ∧ c ≠ Char.ofNat 13) :
    lex true origin ('"' :: s) =
      some (false, [], [origin ++ "(1): LEX ERROR: ", "Unterminated string.", "\n"]) := by
  obtain ⟨L', hnext, hline⟩ := lexNext_unterm_eof origin ('"' :: s) ⟨1, 1, 0, 0⟩
    (by simp) rfl
    (fun j hj1 hj2 => by
      have hj2' : j < s.length + 1 := by simp at hj2; omega
      have hmem : ('"' :: s).getD j NUL ∈ s := by
        have := getD_cons_tail_mem '"' s [] j (by simpa using hj1) hj2'
        simpa using this
      exact hs _ hmem)
  unfold lex
  rw [lexLoop_error true origin ('"' :: s) (('"' :: s).length + 2) ⟨1, 1, 0, 0⟩ [] []
      (by omega) (by rw [hnext]; rfl)]
  rw [hnext]
  simp only [errStep]
  rw [hline]
  rfl

lemma lex_unterminated_nl (origin : String) (s rest : List Char) (nl : Char)
    (hnl : nl = Char.ofNat 10 ∨ nl = Char.ofNat 13)
    (hs : ∀ c ∈ s, c ≠ '"' ∧ c ≠ Char.ofNat 10 ∧ c ≠ Char.ofNat 13)
    (hnul : ∀ c ∈ s, c ≠ NUL) :
    lex true origin ('"' :: (s ++ nl :: rest)) =
      some (false, [], [origin ++ "(2): LEX ERROR: ", "Unterminated string.", "\n"]) := by
  have hterm : ('"' :: (s ++ nl :: rest)).getD (s.length + 1) NUL = nl := by
    show (s ++ nl :: rest).getD s.length NUL = nl
    rw [List.getD_append_right s (nl :: rest) NUL s.length (le_refl _)]
    simp
  obtain ⟨L', hnext, hline⟩ := lexNext_unterm_nl origin ('"' :: (s ++ nl :: rest))
    ⟨1, 1, 0, 0⟩ (s.length + 1) (by simp) rfl (by simp) (by simp)
    (fun j hj1 hj2 => by
      have hmem := getD_cons_tail_mem '"' s (nl :: rest) j (by simpa using hj1) hj2
      exact ⟨(hs _ hmem).1, (hs _ hmem).2.1, (hs _ hmem).2.2, hnul _ hmem⟩)
    (by rw [hterm]; exact hnl)
  unfold lex
  rw [lexLoop_error true origin ('"' :: (s ++ nl :: rest))
      (('"' :: (s ++ nl :: rest)).length + 2) ⟨1, 1, 0, 0⟩ [] []
      (by omega) (by rw [hnext]; rfl)]
  rw [hnext]
  simp only [errStep]
  rw [hline]
  rfl

/-- C7 (amended).  For every input whose lex pass encounters an
unterminated string — an opening double quote with no closing quote before
a newline or end of input — the lex pass fails and the configured output
callback is invoked exactly three times: first with
`<origin>(<line>): LEX ERROR: ` (carrying the origin label and the line
number: the current line when the string runs into end of input, the next
line when it is cut by a newline, the newline having been consumed), then
with `Unterminated string.`, then with a newline.  Parts (a) and (b) state
this at an arbitrary lexer state (any cursor and line number) whose next
character opens such a string, for the end-of-input and newline
terminations respectively; parts (c), (d) and (e) run the whole lex pass
on quote-initial sources terminated by end of input, by a line feed, and
by a carriage return (with arbitrary content after the break). -/
theorem C7_unterminated_string_diagnostics
    (origin : String) (src : List Char) (L : NeLex) (m : Nat) (s rest : List Char)
    (hcur : L.cursor < src.length)
    (hq : src.getD L.cursor NUL = '"')
    (hm1 : L.cursor + 1 ≤ m)
    (hclean : ∀ j, L.cursor + 1 ≤ j → j < m →
      src.getD j NUL ≠ '"' ∧ src.getD j NUL ≠ Char.ofNat 10 ∧
        src.getD j NUL ≠ Char.ofNat 13 ∧ src.getD j NUL ≠ NUL)
    (hs : ∀ c ∈ s, c ≠ '"' ∧ c ≠ Char.ofNat 10 ∧ c ≠ Char.ofNat 13)
    (hnul : ∀ c ∈ s, c ≠ NUL) :
    (m = src.length →
      (lexNext true origin src L).tok = .error ∧
      (lexNext true origin src L).out =
        [origin ++ ("(" ++ toString L.line ++ "): LEX ERROR: "),
          "Unterminated string.", "\n"]) ∧
    ((src.getD m NUL = Char.ofNat 10 ∨ src.getD m NUL = Char.ofNat 13) → m < src.length →
      (lexNext true origin src L).tok = .error ∧
      (lexNext true origin src L).out =
        [origin ++ ("(" ++ toString (L.line + 1) ++ "): LEX ERROR: "),
          "Unterminated string.", "\n"]) ∧
    lex true origin ('"' :: s) =
      some (false, [], [origin ++ "(1): LEX ERROR: ", "Unterminated string.", "\n"]) ∧
    lex true origin ('"' :: (s ++ Char.ofNat 10 :: rest)) =
      some (false, [], [origin ++ "(2): LEX ERROR: ", "Unterminated string.", "\n"]) ∧
    lex true origin ('"' :: (s ++ Char.ofNat 13 :: rest)) =
      some (false, [], [origin ++ "(2): LEX ERROR: ", "Unterminated string.", "\n"]) := by
  refine ⟨?_, ?_, ?_, ?_, ?_⟩
  · intro hm
    obtain ⟨L', hnext, hline⟩ := lexNext_unterm_eof origin src L hcur hq
      (fun j hj1 hj2 => by
        have h := hclean j hj1 (by omega)
        exact ⟨h.1, h.2.1, h.2.2.1⟩)
    rw [hnext]
    refine ⟨rfl, ?_⟩
    simp only [errStep]
    rw [hline]
    rfl
  · intro hterm hmlt
    obtain ⟨L', hnext, hline⟩ :=
      lexNext_unterm_nl origin src L m hcur hq hm1 hmlt hclean hterm
    rw [hnext]
    refine ⟨rfl, ?_⟩
    simp only [errStep]
    rw [hline]
    rfl
  · exact lex_unterminated_eof origin s hs
  · exact lex_unterminated_nl origin s rest (Char.ofNat 10) (Or.inl rfl) hs hnul
  · exact lex_unterminated_nl origin s rest (Char.ofNat 13) (Or.inr rfl) hs hnul

/-- Witness for C7: the source `"a` followed by a newline and more text;
the encounter statement fires at the newline termination (line 2), and the
end-to-end parts run on `"abc`, on `"abc<LF>x`, and on `"abc<CR>x`. -/
theorem C7_unterminated_witness :
    ((2 : Nat) = (['"', 'a', Char.ofNat 10, 'b'] : List Char).length →
      (lexNext true "test" ['"', 'a', Char.ofNat 10, 'b'] ⟨1, 1, 0, 0⟩).tok = .error ∧
      (lexNext true "test" ['"', 'a', Char.ofNat 10, 'b'] ⟨1, 1, 0, 0⟩).out =
        ["test" ++ ("(" ++ toString (⟨1, 1, 0, 0⟩ : NeLex).line ++ "): LEX ERROR: "),
          "Unterminated string.", "\n"]) ∧
    ((['"', 'a', Char.ofNat 10, 'b'].getD 2 NUL = Char.ofNat 10 ∨
        ['"', 'a', Char.ofNat 10, 'b'].getD 2 NUL = Char.ofNat 13) →
      (2 : Nat) < (['"', 'a', Char.ofNat 10, 'b'] : List Char).length →
      (lexNext true "test" ['"', 'a', Char.ofNat 10, 'b'] ⟨1, 1, 0, 0⟩).tok = .error ∧
      (lexNext true "test" ['"', 'a', Char.ofNat 10, 'b'] ⟨1, 1, 0, 0⟩).out =
        ["test" ++ ("(" ++ toString ((⟨1, 1, 0, 0⟩ : NeLex).line + 1) ++ "): LEX ERROR: "),
          "Unterminated string.", "\n"]) ∧
    lex true "test" ('"' :: ['a', 'b', 'c']) =
      some (false, [], ["test" ++ "(1): LEX ERROR: ", "Unterminated string.", "\n"]) ∧
    lex true "test" ('"' :: (['a', 'b', 'c'] ++ Char.ofNat 10 :: ['x'])) =
      some (false, [], ["test" ++ "(2): LEX ERROR: ", "Unterminated string.", "\n"]) ∧
    lex true "test" ('"' :: (['a', 'b', 'c'] ++ Char.ofNat 13 :: ['x'])) =
      some (false, [], ["test" ++ "(2): LEX ERROR: ", "Unterminated string.", "\n"]) :=
  C7_unterminated_string_diagnostics "test" ['"', 'a', Char.ofNat 10, 'b'] ⟨1, 1, 0, 0⟩ 2
    ['a', 'b', 'c'] ['x'] (by decide) (by decide) (by decide) (by decide)
    (by decide) (by decide)

end Nerd
